import Mathlib

/-!
Verification of the ArvFinder account-security core against its
natural-language specification.

The Go services under `backend/services` are shallowly embedded:
strings and byte slices become `List Nat` (byte values), `time.Time`
and `time.Duration` become `Int` (seconds), the SQL tables become
Lean lists of row structures, and every random or external input
(salts, UUIDs, the SMS gateway outcome) is passed explicitly as an
argument.  External cryptographic primitives (`argon2.IDKey`,
HMAC-SHA256) are modelled by deterministic mock functions that keep the
functional interface of the real primitive: they are total functions of
all of their declared inputs and produce outputs of the declared length.
-/

/-- Byte list of a Lean string literal (ASCII code points). -/
def strBytes (s : String) : List Nat :=
  s.toList.map (fun c => c.toNat)

/-- Fuel-driven most-significant-digit-first decimal digits, as ASCII
bytes.  Models `fmt.Sprintf %d` / `big.Int.String` for natural values. -/
def decStrAux : Nat → Nat → List Nat
  | 0, _ => []
  | fuel + 1, n => if n < 10 then [n + 48] else decStrAux fuel (n / 10) ++ [n % 10 + 48]

/-- Decimal representation of a natural number as ASCII bytes. -/
def decStr (n : Nat) : List Nat := decStrAux (n + 1) n

/-- Decimal representation of an integer as ASCII bytes (`-` = byte 45). -/
def intStr (i : Int) : List Nat :=
  if i < 0 then 45 :: decStr i.natAbs else decStr i.natAbs

/-- The standard base64 alphabet (`A-Za-z0-9+/`) as byte values. -/
def b64StdAlpha : List Nat := strBytes (r"ABCDEFGHIJKLMNOPQRSTUVWXYZabcdefghijklmnopqrstuvwxyz0123456789+/")

/-- The URL-safe base64 alphabet (`A-Za-z0-9-_`) as byte values. -/
def b64UrlAlpha : List Nat := strBytes (r"ABCDEFGHIJKLMNOPQRSTUVWXYZabcdefghijklmnopqrstuvwxyz0123456789-_")

/-- Character of a 6-bit value in the given alphabet (defaults to `A`). -/
def b64Char (alpha : List Nat) (v : Nat) : Nat := alpha.getD v 65

/-- Unpadded base64 encoding over a given alphabet; models Go
`base64.RawStdEncoding.EncodeToString` (and the core of the padded
encoders). -/
def b64e (alpha : List Nat) : List Nat → List Nat
  | b1 :: b2 :: b3 :: rest =>
      b64Char alpha (b1 / 4) :: b64Char alpha (b1 % 4 * 16 + b2 / 16) ::
      b64Char alpha (b2 % 16 * 4 + b3 / 64) :: b64Char alpha (b3 % 64) ::
      b64e alpha rest
  | [b1, b2] => [b64Char alpha (b1 / 4), b64Char alpha (b1 % 4 * 16 + b2 / 16), b64Char alpha (b2 % 16 * 4)]
  | [b1] => [b64Char alpha (b1 / 4), b64Char alpha (b1 % 4 * 16)]
  | [] => []

/-- Padded base64 encoding: models Go `base64.StdEncoding` /
`base64.URLEncoding` `EncodeToString` (append `=` bytes, 61). -/
def b64ePadded (alpha : List Nat) (bs : List Nat) : List Nat :=
  b64e alpha bs ++ List.replicate ((3 - bs.length % 3) % 3) 61

/-- Index of a byte in an alphabet. -/
def alphaIdx (c : Nat) : List Nat → Option Nat
  | [] => none
  | a :: rest => if a = c then some 0 else (alphaIdx c rest).map (· + 1)

/-- Map every character byte of a base64 string to its 6-bit value;
any character outside the alphabet makes the whole decode fail. -/
def b64vals (alpha : List Nat) : List Nat → Option (List Nat)
  | [] => some []
  | c :: rest =>
      match alphaIdx c alpha with
      | none => none
      | some v =>
          match b64vals alpha rest with
          | none => none
          | some vs => some (v :: vs)

/-- Reassemble bytes from 6-bit values; a single leftover value is an
error, exactly as in Go's base64 decoder (non-strict about trailing
bits, as `RawStdEncoding` is by default). -/
def b64dChunks : List Nat → Option (List Nat)
  | v1 :: v2 :: v3 :: v4 :: rest =>
      match b64dChunks rest with
      | none => none
      | some bs => some ((v1 * 4 + v2 / 16) :: (v2 % 16 * 16 + v3 / 4) :: (v3 % 4 * 64 + v4) :: bs)
  | [v1, v2, v3] => some [v1 * 4 + v2 / 16, v2 % 16 * 16 + v3 / 4]
  | [v1, v2] => some [v1 * 4 + v2 / 16]
  | [_] => none
  | [] => some []

/-- Models Go `base64.RawStdEncoding.DecodeString`. -/
def b64decode (s : List Nat) : Option (List Nat) :=
  match b64vals b64StdAlpha s with
  | none => none
  | some vs => b64dChunks vs

/-- Models Go `strings.Split(s, sep)` for the single-byte separator
`$` (byte 36), over byte lists. -/
def splitDollar : List Nat → List (List Nat)
  | [] => [[]]
  | b :: rest =>
      if b = 36 then [] :: splitDollar rest
      else
        match splitDollar rest with
        | [] => [[b]]
        | p :: ps => (b :: p) :: ps

/-- Mock of HMAC-SHA256 style keyed hashing: a deterministic keyed
compression of a byte string into a number. -/
def hmacMock (key msg : List Nat) : Nat :=
  (key ++ [254] ++ msg).foldl (fun a b => (a * 131 + b + 1) % 1000003) 7

/-- Mock of `golang.org/x/crypto/argon2.IDKey`.  Faithful to the
primitive's functional interface: a deterministic function of the
password, the salt and all work parameters, producing `keyLength`
bytes. Argument order matches the Go call
`IDKey(password, salt, time, memory, threads, keyLen)`. -/
def argon2IDKey (password salt : List Nat) (iterations memory parallelism keyLength : Nat) : List Nat :=
  let seed := (password ++ [251] ++ salt).foldl
    (fun a b => (a * 131 + b + 1) % 1000003)
    (iterations * 7919 + memory * 104729 + parallelism * 31 + 1)
  (List.range keyLength).map (fun i => (seed * (i + 3) * 48271 + i * 7 + seed / (i + 1)) % 256)

/-- Models Go `crypto/subtle.ConstantTimeCompare`: 1 iff the two byte
slices have equal length and contents; here directly the boolean. -/
def constantTimeCompare (x y : List Nat) : Bool := x == y

/-- Structure `Argon2Params` from `auth.go`. -/
structure Argon2Params where
  memory : Nat
  iterations : Nat
  parallelism : Nat
  saltLength : Nat
  keyLength : Nat
deriving DecidableEq

/-- Structure `AuthService` from `auth.go` (the `*sql.DB` handle is replaced by
explicit state arguments on each operation). -/
structure AuthService where
  jwtSecret : List Nat
  argon2Params : Argon2Params
  tokenDuration : Int
  refreshDuration : Int
deriving DecidableEq

/-- Constructor `NewAuthService`: production parameters, 15-minute access tokens,
7-day refresh tokens.  Durations in seconds. -/
def newAuthService (jwtSecret : List Nat) : AuthService :=
  { jwtSecret := jwtSecret
    argon2Params :=
      { memory := 128 * 1024
        iterations := 4
        parallelism := 4
        saltLength := 32
        keyLength := 64 }
    tokenDuration := 15 * 60
    refreshDuration := 7 * 24 * 60 * 60 }

/-- Function `HashPassword` from `auth.go`: derive the key with the service's
Argon2 parameters and render
`$argon2id$v=19$m=<mem>,t=<iter>,p=<par>$<b64(salt)>$<b64(hash)>`. -/
def hashPassword (a : AuthService) (password salt : List Nat) : List Nat :=
  let hash := argon2IDKey password salt a.argon2Params.iterations a.argon2Params.memory
    a.argon2Params.parallelism a.argon2Params.keyLength
  36 :: strBytes (r"argon2id") ++ 36 :: strBytes (r"v=19") ++
  36 :: (strBytes (r"m=") ++ decStr a.argon2Params.memory ++ strBytes (r",t=") ++
    decStr a.argon2Params.iterations ++ strBytes (r",p=") ++ decStr a.argon2Params.parallelism) ++
  36 :: b64e b64StdAlpha salt ++
  36 :: b64e b64StdAlpha hash

/-- Function `VerifyPassword` from `auth.go`: split on `$`, require 6 parts and
the `argon2id` tag, base64-decode salt and stored key, recompute the
key with the service's ambient Argon2 parameters, compare in constant
time.  Any parse failure returns `false` (the Go function can only
return a `bool`, never an error). -/
def verifyPassword (a : AuthService) (password hashedPassword : List Nat) : Bool :=
  let parts := splitDollar hashedPassword
  if parts.length ≠ 6 then false
  else if parts.getD 1 [] ≠ strBytes (r"argon2id") then false
  else
    match b64decode (parts.getD 4 []) with
    | none => false
    | some salt =>
        match b64decode (parts.getD 5 []) with
        | none => false
        | some expectedHash =>
            let actualHash := argon2IDKey password salt a.argon2Params.iterations
              a.argon2Params.memory a.argon2Params.parallelism a.argon2Params.keyLength
            constantTimeCompare expectedHash actualHash

/-- Sextet stream produced by the base64 encoder, for round-trip proofs. -/
def b64sext : List Nat → List Nat
  | b1 :: b2 :: b3 :: rest =>
      b1 / 4 :: (b1 % 4 * 16 + b2 / 16) :: (b2 % 16 * 4 + b3 / 64) :: b3 % 64 :: b64sext rest
  | [b1, b2] => [b1 / 4, b1 % 4 * 16 + b2 / 16, b2 % 16 * 4]
  | [b1] => [b1 / 4, b1 % 4 * 16]
  | [] => []

theorem alphaIdx_b64Char_std : ∀ v : Nat, v < 64 → alphaIdx (b64Char b64StdAlpha v) b64StdAlpha = some v := by
  decide

theorem b64Char_std_ne_36 (v : Nat) : b64Char b64StdAlpha v ≠ 36 := by
  by_cases h : v < 64
  · exact (by decide : ∀ v : Nat, v < 64 → b64Char b64StdAlpha v ≠ 36) v h
  · have hlen : b64StdAlpha.length = 64 := by decide
    unfold b64Char
    rw [List.getD_eq_default]
    · decide
    · omega

theorem mem_b64e_std_ne_36 : ∀ bs : List Nat, ∀ c ∈ b64e b64StdAlpha bs, c ≠ 36
  | b1 :: b2 :: b3 :: rest => by
      intro c hc
      simp only [b64e, List.mem_cons] at hc
      rcases hc with h | h | h | h | h
      all_goals first
        | (subst h; exact b64Char_std_ne_36 _)
        | exact mem_b64e_std_ne_36 rest c h
  | [b1, b2] => by
      intro c hc
      simp only [b64e, List.mem_cons, List.not_mem_nil, or_false] at hc
      rcases hc with h | h | h <;> (subst h; exact b64Char_std_ne_36 _)
  | [b1] => by
      intro c hc
      simp only [b64e, List.mem_cons, List.not_mem_nil, or_false] at hc
      rcases hc with h | h <;> (subst h; exact b64Char_std_ne_36 _)
  | [] => by intro c hc; simp [b64e] at hc

theorem b64vals_b64e (bs : List Nat) (h : ∀ b ∈ bs, b < 256) :
    b64vals b64StdAlpha (b64e b64StdAlpha bs) = some (b64sext bs) := by
  induction bs using b64sext.induct with
  | case1 b1 b2 b3 rest ih =>
      have hb1 : b1 < 256 := h b1 (by simp)
      have hb2 : b2 < 256 := h b2 (by simp)
      have hb3 : b3 < 256 := h b3 (by simp)
      have ihr := ih (fun b hb => h b (by simp [hb]))
      simp only [b64e, b64vals, b64sext]
      rw [alphaIdx_b64Char_std _ (by omega), alphaIdx_b64Char_std _ (by omega),
        alphaIdx_b64Char_std _ (by omega), alphaIdx_b64Char_std _ (by omega), ihr]
  | case2 b1 b2 =>
      have hb1 : b1 < 256 := h b1 (by simp)
      have hb2 : b2 < 256 := h b2 (by simp)
      simp only [b64e, b64vals, b64sext]
      rw [alphaIdx_b64Char_std _ (by omega), alphaIdx_b64Char_std _ (by omega),
        alphaIdx_b64Char_std _ (by omega)]
  | case3 b1 =>
      have hb1 : b1 < 256 := h b1 (by simp)
      simp only [b64e, b64vals, b64sext]
      rw [alphaIdx_b64Char_std _ (by omega), alphaIdx_b64Char_std _ (by omega)]
  | case4 => rfl

theorem b64dChunks_b64sext (bs : List Nat) (h : ∀ b ∈ bs, b < 256) :
    b64dChunks (b64sext bs) = some bs := by
  induction bs using b64sext.induct with
  | case1 b1 b2 b3 rest ih =>
      have hb1 : b1 < 256 := h b1 (by simp)
      have hb2 : b2 < 256 := h b2 (by simp)
      have hb3 : b3 < 256 := h b3 (by simp)
      have ihr := ih (fun b hb => h b (by simp [hb]))
      simp only [b64sext, b64dChunks, ihr, Option.some.injEq, List.cons.injEq]
      refine ⟨by omega, by omega, by omega, trivial⟩
  | case2 b1 b2 =>
      have hb1 : b1 < 256 := h b1 (by simp)
      have hb2 : b2 < 256 := h b2 (by simp)
      simp only [b64sext, b64dChunks, Option.some.injEq, List.cons.injEq]
      refine ⟨by omega, by omega, trivial⟩
  | case3 b1 =>
      have hb1 : b1 < 256 := h b1 (by simp)
      simp only [b64sext, b64dChunks, Option.some.injEq, List.cons.injEq]
      refine ⟨by omega, trivial⟩
  | case4 => rfl

theorem b64decode_b64e (bs : List Nat) (h : ∀ b ∈ bs, b < 256) :
    b64decode (b64e b64StdAlpha bs) = some bs := by
  unfold b64decode
  rw [b64vals_b64e bs h]
  exact b64dChunks_b64sext bs h

theorem splitDollar_ne_nil : ∀ l : List Nat, splitDollar l ≠ []
  | [] => by simp [splitDollar]
  | b :: rest => by
      simp only [splitDollar]
      split
      · simp
      · cases h : splitDollar rest <;> simp

theorem splitDollar_clean : ∀ xs : List Nat, (∀ b ∈ xs, b ≠ 36) → splitDollar xs = [xs]
  | [], _ => rfl
  | b :: rest, h => by
      have hb : b ≠ 36 := h b (by simp)
      have hr := splitDollar_clean rest (fun x hx => h x (by simp [hx]))
      simp only [splitDollar, if_neg hb, hr]

theorem splitDollar_clean_append :
    ∀ xs ys : List Nat, (∀ b ∈ xs, b ≠ 36) →
      splitDollar (xs ++ 36 :: ys) = xs :: splitDollar ys
  | [], ys, _ => by simp [splitDollar]
  | b :: rest, ys, h => by
      have hb : b ≠ 36 := h b (by simp)
      have hr := splitDollar_clean_append rest ys (fun x hx => h x (by simp [hx]))
      simp only [List.cons_append, splitDollar, if_neg hb, List.append_eq, hr]

theorem mem_decStrAux_digit : ∀ f n : Nat, ∀ c ∈ decStrAux f n, 48 ≤ c ∧ c ≤ 57
  | 0, n => by simp [decStrAux]
  | f + 1, n => by
      intro c hc
      simp only [decStrAux] at hc
      split at hc
      · simp only [List.mem_singleton] at hc
        omega
      · rw [List.mem_append] at hc
        rcases hc with h | h
        · exact mem_decStrAux_digit f (n / 10) c h
        · simp only [List.mem_singleton] at h
          have : n % 10 < 10 := Nat.mod_lt _ (by omega)
          omega

theorem mem_decStr_digit (n : Nat) : ∀ c ∈ decStr n, 48 ≤ c ∧ c ≤ 57 :=
  mem_decStrAux_digit (n + 1) n

theorem mem_decStr_ne_36 (n : Nat) : ∀ c ∈ decStr n, c ≠ 36 := by
  intro c hc
  have := mem_decStr_digit n c hc
  omega

theorem argon2IDKey_length (password salt : List Nat) (iterations memory parallelism keyLength : Nat) :
    (argon2IDKey password salt iterations memory parallelism keyLength).length = keyLength := by
  simp [argon2IDKey]

theorem argon2IDKey_lt_256 (password salt : List Nat) (iterations memory parallelism keyLength : Nat) :
    ∀ b ∈ argon2IDKey password salt iterations memory parallelism keyLength, b < 256 := by
  intro b hb
  simp only [argon2IDKey, List.mem_map] at hb
  obtain ⟨i, _, hi⟩ := hb
  omega

/-- The params section of the encoded hash is free of `$` bytes. -/
theorem paramsSection_ne_36 (a : AuthService) :
    ∀ c ∈ strBytes (r"m=") ++ decStr a.argon2Params.memory ++ strBytes (r",t=") ++
      decStr a.argon2Params.iterations ++ strBytes (r",p=") ++ decStr a.argon2Params.parallelism,
      c ≠ 36 := by
  intro c hc
  simp only [List.mem_append] at hc
  rcases hc with ((((h | h) | h) | h) | h) | h
  · exact (by decide : ∀ x ∈ strBytes (r"m="), x ≠ 36) c h
  · exact mem_decStr_ne_36 _ c h
  · exact (by decide : ∀ x ∈ strBytes (r",t="), x ≠ 36) c h
  · exact mem_decStr_ne_36 _ c h
  · exact (by decide : ∀ x ∈ strBytes (r",p="), x ≠ 36) c h
  · exact mem_decStr_ne_36 _ c h

/-- Splitting the encoded hash produced by `hashPassword` yields exactly
the six expected parts. -/
theorem splitDollar_hashPassword (a : AuthService) (password salt : List Nat) :
    splitDollar (hashPassword a password salt) =
      [[], strBytes (r"argon2id"), strBytes (r"v=19"),
        strBytes (r"m=") ++ decStr a.argon2Params.memory ++ strBytes (r",t=") ++
          decStr a.argon2Params.iterations ++ strBytes (r",p=") ++ decStr a.argon2Params.parallelism,
        b64e b64StdAlpha salt,
        b64e b64StdAlpha (argon2IDKey password salt a.argon2Params.iterations a.argon2Params.memory
          a.argon2Params.parallelism a.argon2Params.keyLength)] := by
  unfold hashPassword
  rw [show (36 : Nat) :: strBytes (r"argon2id") ++ 36 :: strBytes (r"v=19") ++
      36 :: (strBytes (r"m=") ++ decStr a.argon2Params.memory ++ strBytes (r",t=") ++
        decStr a.argon2Params.iterations ++ strBytes (r",p=") ++ decStr a.argon2Params.parallelism) ++
      36 :: b64e b64StdAlpha salt ++
      36 :: b64e b64StdAlpha (argon2IDKey password salt a.argon2Params.iterations a.argon2Params.memory
        a.argon2Params.parallelism a.argon2Params.keyLength) =
      [] ++ (36 : Nat) :: (strBytes (r"argon2id") ++ 36 :: (strBytes (r"v=19") ++
      36 :: ((strBytes (r"m=") ++ decStr a.argon2Params.memory ++ strBytes (r",t=") ++
        decStr a.argon2Params.iterations ++ strBytes (r",p=") ++ decStr a.argon2Params.parallelism) ++
      36 :: (b64e b64StdAlpha salt ++
      36 :: b64e b64StdAlpha (argon2IDKey password salt a.argon2Params.iterations a.argon2Params.memory
        a.argon2Params.parallelism a.argon2Params.keyLength))))) from by simp]
  rw [splitDollar_clean_append [] _ (by simp)]
  rw [splitDollar_clean_append _ _ (by decide)]
  rw [splitDollar_clean_append _ _ (by decide)]
  rw [splitDollar_clean_append _ _ (paramsSection_ne_36 a)]
  rw [splitDollar_clean_append _ _ (mem_b64e_std_ne_36 salt)]
  rw [splitDollar_clean _ (mem_b64e_std_ne_36 _)]

/-- C2: for every password p and salt s (byte lists), verifying a
password against its own freshly computed hash succeeds:
`VerifyPassword(p, HashPassword(p, s))` returns `true`. -/
theorem c2_verify_own_hash (a : AuthService) (p s : List Nat) (hs : ∀ b ∈ s, b < 256) :
    verifyPassword a p (hashPassword a p s) = true := by
  have hsplit := splitDollar_hashPassword a p s
  have hK := argon2IDKey_lt_256 p s a.argon2Params.iterations a.argon2Params.memory
    a.argon2Params.parallelism a.argon2Params.keyLength
  simp [verifyPassword, hsplit, b64decode_b64e s hs, b64decode_b64e _ hK, constantTimeCompare]

theorem c2_verify_own_hash_witness :
    (∀ b ∈ ([1, 2, 3] : List Nat), b < 256) ∧
      verifyPassword (newAuthService (strBytes (r"secret"))) (strBytes (r"hunter2"))
        (hashPassword (newAuthService (strBytes (r"secret"))) (strBytes (r"hunter2")) [1, 2, 3]) = true :=
  ⟨by decide, c2_verify_own_hash _ _ _ (by decide)⟩

/-- Splitting a six-section dollar-separated encoding with clean
sections yields exactly those sections. -/
theorem splitDollar_sixParts (t p2 p3 s64 k64 : List Nat)
    (h1 : ∀ b ∈ t, b ≠ 36) (h2 : ∀ b ∈ p2, b ≠ 36) (h3 : ∀ b ∈ p3, b ≠ 36)
    (h4 : ∀ b ∈ s64, b ≠ 36) (h5 : ∀ b ∈ k64, b ≠ 36) :
    splitDollar (36 :: t ++ 36 :: p2 ++ 36 :: p3 ++ 36 :: s64 ++ 36 :: k64) =
      [[], t, p2, p3, s64, k64] := by
  have e : (36 : Nat) :: t ++ 36 :: p2 ++ 36 :: p3 ++ 36 :: s64 ++ 36 :: k64 =
      [] ++ (36 : Nat) :: (t ++ 36 :: (p2 ++ 36 :: (p3 ++ 36 :: (s64 ++ 36 :: k64)))) := by simp
  rw [e, splitDollar_clean_append [] _ (by simp), splitDollar_clean_append _ _ h1,
    splitDollar_clean_append _ _ h2, splitDollar_clean_append _ _ h3,
    splitDollar_clean_append _ _ h4, splitDollar_clean _ h5]

/-- Services used to refute C3: identical except for the configured
Argon2 iteration count. -/
def c3ServiceA : AuthService := newAuthService (strBytes (r"secret"))

/-- Second service for the C3 counterexample, configured with a
different iteration count. -/
def c3ServiceB : AuthService :=
  { c3ServiceA with argon2Params := { c3ServiceA.argon2Params with iterations := 2 } }

set_option maxRecDepth 1000000 in
/-- C3 (counterexample): the claim "two AuthService instances
configured with different Argon2 parameters return the same result for
VerifyPassword(p, h)" is false.  `h` is the well-formed hash of
"hunter2" produced by `c3ServiceA` (it verifies as `true` there), yet
`c3ServiceB` — which differs only in its configured iteration count —
returns `false` for the very same `(p, h)`: `VerifyPassword` recomputes
with the service's ambient parameters, not with the `m=,t=,p=` values
embedded in the hash. -/
theorem c3_counterexample_ambient_params :
    verifyPassword c3ServiceA (strBytes (r"hunter2"))
        (hashPassword c3ServiceA (strBytes (r"hunter2")) [1, 2, 3, 4]) = true ∧
      verifyPassword c3ServiceB (strBytes (r"hunter2"))
        (hashPassword c3ServiceA (strBytes (r"hunter2")) [1, 2, 3, 4]) = false := by
  constructor <;> decide

/-- C3 (amended): `VerifyPassword` parses only the salt and the stored
derived key from the encoded hash; the work-parameter section of the
hash is ignored, and the recomputation uses the service's ambient
configured Argon2 parameters.  Part one: replacing the version and
parameter sections of a well-formed hash by arbitrary (dollar-free)
other sections never changes the verification result.  Part two: the
result depends on the service only through its configured
`argon2Params`, so two instances agree whenever their ambient
configurations agree (not, as the claim had it, unconditionally). -/
theorem c3_params_from_ambient_config :
    (∀ (a : AuthService) (p p2 p3 q2 q3 s64 k64 : List Nat),
      (∀ b ∈ p2, b ≠ 36) → (∀ b ∈ p3, b ≠ 36) → (∀ b ∈ q2, b ≠ 36) → (∀ b ∈ q3, b ≠ 36) →
      (∀ b ∈ s64, b ≠ 36) → (∀ b ∈ k64, b ≠ 36) →
      verifyPassword a p (36 :: strBytes (r"argon2id") ++ 36 :: p2 ++ 36 :: p3 ++ 36 :: s64 ++ 36 :: k64) =
        verifyPassword a p (36 :: strBytes (r"argon2id") ++ 36 :: q2 ++ 36 :: q3 ++ 36 :: s64 ++ 36 :: k64)) ∧
    (∀ (a1 a2 : AuthService) (p h : List Nat), a1.argon2Params = a2.argon2Params →
      verifyPassword a1 p h = verifyPassword a2 p h) := by
  constructor
  · intro a p p2 p3 q2 q3 s64 k64 hp2 hp3 hq2 hq3 hs hk
    have htag : ∀ b ∈ strBytes (r"argon2id"), b ≠ 36 := by decide
    simp only [verifyPassword, splitDollar_sixParts _ _ _ _ _ htag hp2 hp3 hs hk,
      splitDollar_sixParts _ _ _ _ _ htag hq2 hq3 hs hk, List.length_cons, List.length_nil,
      List.getD_cons_succ, List.getD_cons_zero]
  · intro a1 a2 p h hp
    simp only [verifyPassword, hp]

theorem c3_params_from_ambient_config_witness :
    verifyPassword (newAuthService []) [5]
        (36 :: strBytes (r"argon2id") ++ 36 :: [97] ++ 36 :: [98] ++ 36 :: [] ++ 36 :: []) =
      verifyPassword (newAuthService []) [5]
        (36 :: strBytes (r"argon2id") ++ 36 :: [99] ++ 36 :: [100] ++ 36 :: [] ++ 36 :: []) ∧
    verifyPassword (newAuthService []) [5] [1, 2] = verifyPassword (newAuthService []) [5] [1, 2] :=
  ⟨c3_params_from_ambient_config.1 (newAuthService []) [5] [97] [98] [99] [100] [] []
      (by decide) (by decide) (by decide) (by decide) (by decide) (by decide),
    c3_params_from_ambient_config.2 (newAuthService []) (newAuthService []) [5] [1, 2] rfl⟩

/-- C8: for every password and every malformed encoded hash — wrong
number of dollar-separated parts, unsupported algorithm tag, invalid
base64 salt or key, or derived-key length mismatch — `VerifyPassword`
returns `false`.  The Go function's type is `bool`: it cannot throw or
return an error distinguishing bad format from wrong password, and
this theorem shows every malformation lands on the same `false`. -/
theorem c8_malformed_hash_false (a : AuthService) (p h : List Nat) :
    ((splitDollar h).length ≠ 6 → verifyPassword a p h = false) ∧
    ((splitDollar h).getD 1 [] ≠ strBytes (r"argon2id") → verifyPassword a p h = false) ∧
    (b64decode ((splitDollar h).getD 4 []) = none → verifyPassword a p h = false) ∧
    (b64decode ((splitDollar h).getD 5 []) = none → verifyPassword a p h = false) ∧
    (∀ key, b64decode ((splitDollar h).getD 5 []) = some key →
      key.length ≠ a.argon2Params.keyLength → verifyPassword a p h = false) := by
  refine ⟨?_, ?_, ?_, ?_, ?_⟩
  · intro h1
    simp only [verifyPassword, if_pos h1]
  · intro h2
    by_cases h1 : (splitDollar h).length ≠ 6
    · simp only [verifyPassword, if_pos h1]
    · simp only [verifyPassword, if_neg h1, if_pos h2]
  · intro h3
    by_cases h1 : (splitDollar h).length ≠ 6
    · simp only [verifyPassword, if_pos h1]
    · by_cases h2 : (splitDollar h).getD 1 [] ≠ strBytes (r"argon2id")
      · simp only [verifyPassword, if_neg h1, if_pos h2]
      · simp only [verifyPassword, if_neg h1, if_neg h2, h3]
  · intro h4
    by_cases h1 : (splitDollar h).length ≠ 6
    · simp only [verifyPassword, if_pos h1]
    · by_cases h2 : (splitDollar h).getD 1 [] ≠ strBytes (r"argon2id")
      · simp only [verifyPassword, if_neg h1, if_pos h2]
      · cases hdec : b64decode ((splitDollar h).getD 4 []) with
        | none => simp only [verifyPassword, if_neg h1, if_neg h2, hdec]
        | some salt => simp only [verifyPassword, if_neg h1, if_neg h2, hdec, h4]
  · intro key hkey hlen
    by_cases h1 : (splitDollar h).length ≠ 6
    · simp only [verifyPassword, if_pos h1]
    · by_cases h2 : (splitDollar h).getD 1 [] ≠ strBytes (r"argon2id")
      · simp only [verifyPassword, if_neg h1, if_pos h2]
      · cases hdec : b64decode ((splitDollar h).getD 4 []) with
        | none => simp only [verifyPassword, if_neg h1, if_neg h2, hdec]
        | some salt =>
            simp only [verifyPassword, if_neg h1, if_neg h2, hdec, hkey, constantTimeCompare]
            rw [beq_eq_false_iff_ne]
            intro e
            apply hlen
            rw [e, argon2IDKey_length]

theorem c8_malformed_hash_false_witness :
    verifyPassword (newAuthService []) [7] [] = false ∧
    verifyPassword (newAuthService []) [7] [36, 36, 36, 36, 36] = false ∧
    verifyPassword (newAuthService []) [7]
      (36 :: strBytes (r"argon2id") ++ 36 :: [] ++ 36 :: [] ++ 36 :: [42] ++ 36 :: []) = false ∧
    verifyPassword (newAuthService []) [7]
      (36 :: strBytes (r"argon2id") ++ 36 :: [] ++ 36 :: [] ++ 36 :: [] ++ 36 :: [42]) = false ∧
    verifyPassword (newAuthService []) [7]
      (36 :: strBytes (r"argon2id") ++ 36 :: [] ++ 36 :: [] ++ 36 :: [] ++
        36 :: b64e b64StdAlpha [1]) = false :=
  ⟨(c8_malformed_hash_false _ _ _).1 (by decide),
    (c8_malformed_hash_false _ _ _).2.1 (by decide),
    (c8_malformed_hash_false _ _ _).2.2.1 (by decide),
    (c8_malformed_hash_false _ _ _).2.2.2.1 (by decide),
    (c8_malformed_hash_false _ _ _).2.2.2.2 [1] (by decide) (by decide)⟩

/-- Structure `RateLimit` from `rate_limiter.go`: per-action limit
configuration.  Durations in seconds. -/
structure RateLimit where
  maxAttempts : Nat
  window : Int
  blockTime : Int
deriving DecidableEq

/-- The `defaultRateLimits` table from `rate_limiter.go`. -/
def defaultRateLimits : List (List Nat × RateLimit) :=
  [(strBytes (r"login"), ⟨5, 15 * 60, 30 * 60⟩),
   (strBytes (r"register"), ⟨3, 60 * 60, 2 * 60 * 60⟩),
   (strBytes (r"password_reset"), ⟨3, 60 * 60, 60 * 60⟩),
   (strBytes (r"sms_send"), ⟨5, 60 * 60, 2 * 60 * 60⟩),
   (strBytes (r"email_verification"), ⟨3, 60 * 60, 60 * 60⟩)]

/-- Go map lookup on the configuration table. -/
def lookupLimit (action : List Nat) : List (List Nat × RateLimit) → Option RateLimit
  | [] => none
  | (k, v) :: rest => if k = action then some v else lookupLimit action rest

/-- A row of the `rate_limits` table (`UNIQUE(identifier, action)`). -/
structure RateLimitRow where
  identifier : List Nat
  action : List Nat
  attempts : Nat
  windowStart : Int
  blockedUntil : Option Int
deriving DecidableEq

/-- Row predicate `identifier = $1 AND action = $2`. -/
def rlMatches (identifier action : List Nat) (r : RateLimitRow) : Bool :=
  r.identifier == identifier && r.action == action

/-- `INSERT ... ON CONFLICT (identifier, action) DO UPDATE`: update the
matching row if one exists, otherwise insert `ins`. -/
def rlUpsert (db : List RateLimitRow) (identifier action : List Nat)
    (ins : RateLimitRow) (upd : RateLimitRow → RateLimitRow) : List RateLimitRow :=
  if db.any (rlMatches identifier action) then
    db.map (fun r => if rlMatches identifier action r then upd r else r)
  else db ++ [ins]

/-- Window-check phase of `IsAllowed` (after the live-block check has
fallen through): count attempts in the current window; at or above the
limit, install a block and deny with `retryAfter = BlockTime`. -/
def isAllowedWindow (db : List RateLimitRow) (identifier action : List Nat)
    (limit : RateLimit) (now : Int) : Bool × Int × List RateLimitRow :=
  let windowStart := now - limit.window
  let attempts :=
    match db.find? (fun r => rlMatches identifier action r && decide (windowStart < r.windowStart)) with
    | some r => r.attempts
    | none => 0
  if limit.maxAttempts ≤ attempts then
    let blockedUntil := now + limit.blockTime
    (false, limit.blockTime,
      rlUpsert db identifier action
        ⟨identifier, action, attempts + 1, now, some blockedUntil⟩
        (fun r => { r with attempts := attempts + 1, windowStart := now,
                           blockedUntil := some blockedUntil }))
  else (true, 0, db)

/-- Function `IsAllowed` from `rate_limiter.go`: unknown actions are always
allowed; a live block denies with the remaining time; otherwise the
window check runs.  Returns `(allowed, retryAfter, table)`. -/
def isAllowed (db : List RateLimitRow) (identifier action : List Nat) (now : Int) :
    Bool × Int × List RateLimitRow :=
  match lookupLimit action defaultRateLimits with
  | none => (true, 0, db)
  | some limit =>
      let liveBlock :=
        match db.find? (rlMatches identifier action) with
        | some row =>
            match row.blockedUntil with
            | some t => if now < t then some t else none
            | none => none
        | none => none
      match liveBlock with
      | some t => (false, t - now, db)
      | none => isAllowedWindow db identifier action limit now

/-- Function `RecordAttempt` from `rate_limiter.go`: unknown actions record
nothing; otherwise increment the window counter (resetting an expired
window), computing a block when the new count reaches the limit, and
upsert with the SQL `CASE` on `window_start`. -/
def recordAttempt (db : List RateLimitRow) (identifier action : List Nat) (now : Int) :
    List RateLimitRow :=
  match lookupLimit action defaultRateLimits with
  | none => db
  | some limit =>
      let windowStart := now - limit.window
      let prev :=
        match db.find? (fun r => rlMatches identifier action r && decide (windowStart < r.windowStart)) with
        | some r => r.attempts
        | none => 0
      let attempts := prev + 1
      let blockedUntil : Option Int :=
        if limit.maxAttempts ≤ attempts then some (now + limit.blockTime) else none
      rlUpsert db identifier action
        ⟨identifier, action, attempts, now, blockedUntil⟩
        (fun r =>
          if r.windowStart ≤ now then
            { r with attempts := attempts, windowStart := now, blockedUntil := blockedUntil }
          else
            { r with attempts := r.attempts + 1, blockedUntil := blockedUntil })

/-- Function `ResetAttempts` from `rate_limiter.go`: zero the counter and
clear any block on the matching row. -/
def resetAttempts (db : List RateLimitRow) (identifier action : List Nat) : List RateLimitRow :=
  db.map (fun r =>
    if rlMatches identifier action r then { r with attempts := 0, blockedUntil := none } else r)

/-- C5: with the login configuration (max 5 attempts per 15-minute
window, 30-minute block), five `RecordAttempt("1.2.3.4","login")` calls
within one window make the next `IsAllowed` call deny with
`retryAfter` of 30 minutes (the block installed by the fifth attempt
still has its full duration remaining at the same instant), and after
`ResetAttempts` the next `IsAllowed` call allows again. -/
theorem c5_login_rate_limit_scenario (now : Int) :
    (let ip := strBytes (r"1.2.3.4")
     let act := strBytes (r"login")
     let d5 := recordAttempt (recordAttempt (recordAttempt (recordAttempt
       (recordAttempt [] ip act now) ip act now) ip act now) ip act now) ip act now
     let r6 := isAllowed d5 ip act now
     let r7 := isAllowed (resetAttempts r6.2.2 ip act) ip act now
     r6.1 = false ∧ r6.2.1 = 30 * 60 ∧ r7.1 = true ∧ r7.2.1 = 0) := by
  have hw : now - 900 < now := by omega
  have hb : now < now + 1800 := by omega
  simp [isAllowed, isAllowedWindow, recordAttempt, resetAttempts, rlUpsert, rlMatches,
    lookupLimit, defaultRateLimits, hw, hb]

/-- C10: an action with no entry in the default rate-limit table is
never limited: `IsAllowed` returns `(true, 0)` and leaves the table
unchanged (installs no block), and `RecordAttempt` records nothing —
the limiter fails open on unknown actions. -/
theorem c10_unknown_action_fails_open (db : List RateLimitRow) (identifier action : List Nat)
    (now : Int) (h : lookupLimit action defaultRateLimits = none) :
    isAllowed db identifier action now = (true, 0, db) ∧
      recordAttempt db identifier action now = db := by
  constructor <;> simp [isAllowed, recordAttempt, h]

theorem c10_unknown_action_fails_open_witness :
    lookupLimit (strBytes (r"frobnicate")) defaultRateLimits = none ∧
      (isAllowed [] [1] (strBytes (r"frobnicate")) 0 = (true, 0, []) ∧
        recordAttempt [] [1] (strBytes (r"frobnicate")) 0 = []) :=
  ⟨by decide, c10_unknown_action_fails_open [] [1] (strBytes (r"frobnicate")) 0 (by decide)⟩

/-- Structure `User` from `auth.go`. -/
structure User where
  id : List Nat
  tenantID : List Nat
  email : List Nat
  emailVerified : Bool
  firstName : List Nat
  lastName : List Nat
  phoneNumber : List Nat
  phoneVerified : Bool
  role : List Nat
  isActive : Bool
  twoFactorEnabled : Bool
  lastLoginAt : Option Int
  failedLoginAttempts : Int
  lockedUntil : Option Int
  createdAt : Int
  updatedAt : Int
deriving DecidableEq

/-- Structure `JWTClaims` from `auth.go` (custom claims plus the embedded
registered claims that `GenerateTokenPair` sets). -/
structure JWTClaims where
  userID : List Nat
  tenantID : List Nat
  email : List Nat
  role : List Nat
  sessionID : List Nat
  deviceFingerprint : List Nat
  jti : List Nat
  subject : List Nat
  issuer : List Nat
  issuedAt : Int
  expiresAt : Int
  notBefore : Int
deriving DecidableEq

/-- Serialization of the claims for signing (models the canonical JSON
payload of the JWT). -/
def claimsBytes (c : JWTClaims) : List Nat :=
  c.userID ++ [255] ++ c.tenantID ++ [255] ++ c.email ++ [255] ++ c.role ++ [255] ++
  c.sessionID ++ [255] ++ c.deviceFingerprint ++ [255] ++ c.jti ++ [255] ++ c.subject ++ [255] ++
  c.issuer ++ [255] ++ intStr c.issuedAt ++ [255] ++ intStr c.expiresAt ++ [255] ++ intStr c.notBefore

/-- A signed JWT: the claims, the signing-method family flag (HMAC or
not), and the signature over the serialized claims. -/
structure SignedToken where
  claims : JWTClaims
  isHMAC : Bool
  sig : Nat
deriving DecidableEq

/-- Structure `TokenPair` from `auth.go`. -/
structure TokenPair where
  accessToken : SignedToken
  refreshToken : List Nat
  expiresAt : Int
  tokenType : List Nat
deriving DecidableEq

/-- A row of the `user_sessions` table. -/
structure SessionRow where
  userID : List Nat
  refreshToken : List Nat
  refreshTokenHash : List Nat
  accessTokenJti : List Nat
  deviceFingerprint : List Nat
  userAgent : List Nat
  ipAddress : List Nat
  expiresAt : Int
  revoked : Bool
deriving DecidableEq

/-- The random values `GenerateTokenPair` draws: two UUIDs, 32 refresh
token bytes, and the salt for hashing the refresh token. -/
structure TokenEntropy where
  sessionUUID : List Nat
  jtiUUID : List Nat
  refreshBytes : List Nat
  refreshSalt : List Nat
deriving DecidableEq

/-- Function `createDeviceFingerprint` from `auth.go`:
`base64.StdEncoding` of `deviceInfo:ipAddress` (58 is `:`). -/
def createDeviceFingerprint (deviceInfo ipAddress : List Nat) : List Nat :=
  b64ePadded b64StdAlpha (deviceInfo ++ [58] ++ ipAddress)

/-- The access-token claims built by `GenerateTokenPair`. -/
def tokenPairClaims (a : AuthService) (user : User) (deviceInfo ipAddress : List Nat)
    (now : Int) (ent : TokenEntropy) : JWTClaims :=
  { userID := user.id
    tenantID := user.tenantID
    email := user.email
    role := user.role
    sessionID := ent.sessionUUID
    deviceFingerprint := createDeviceFingerprint deviceInfo ipAddress
    jti := ent.jtiUUID
    subject := user.id
    issuer := strBytes (r"arvfinder")
    issuedAt := now
    expiresAt := now + a.tokenDuration
    notBefore := now }

/-- The session row inserted by `GenerateTokenPair`: user id, the
plaintext refresh token, its Argon2 hash, the jti, the fingerprint,
user agent, IP and the refresh expiry; `revoked` defaults to false. -/
def newSessionRow (a : AuthService) (user : User) (deviceInfo ipAddress : List Nat)
    (now : Int) (ent : TokenEntropy) : SessionRow :=
  let refreshToken := b64ePadded b64UrlAlpha ent.refreshBytes
  { userID := user.id
    refreshToken := refreshToken
    refreshTokenHash := hashPassword a refreshToken ent.refreshSalt
    accessTokenJti := ent.jtiUUID
    deviceFingerprint := createDeviceFingerprint deviceInfo ipAddress
    userAgent := deviceInfo
    ipAddress := ipAddress
    expiresAt := now + a.refreshDuration
    revoked := false }

/-- Function `GenerateTokenPair` from `auth.go`: build the claims (15-minute
access token), sign with HS256, generate the opaque refresh token
(URL-safe base64 of 32 random bytes), hash it, and insert the session
row (7-day expiry). -/
def generateTokenPair (a : AuthService) (user : User) (deviceInfo ipAddress : List Nat)
    (now : Int) (ent : TokenEntropy) (db : List SessionRow) : TokenPair × List SessionRow :=
  let claims := tokenPairClaims a user deviceInfo ipAddress now ent
  let accessToken : SignedToken :=
    { claims := claims, isHMAC := true, sig := hmacMock a.jwtSecret (claimsBytes claims) }
  ({ accessToken := accessToken
     refreshToken := b64ePadded b64UrlAlpha ent.refreshBytes
     expiresAt := now + a.refreshDuration
     tokenType := strBytes (r"Bearer") },
   db ++ [newSessionRow a user deviceInfo ipAddress now ent])

/-- Liveness predicate of the session-row query in `ValidateToken`:
`access_token_jti = $1 AND expires_at > NOW() AND revoked = FALSE`. -/
def sessionLive (jti : List Nat) (now : Int) (r : SessionRow) : Bool :=
  r.accessTokenJti == jti && decide (now < r.expiresAt) && !r.revoked

/-- Function `ValidateToken` from `auth.go`: reject non-HMAC tokens, check
the signature and the registered time claims (`nbf ≤ now < exp`), then
require a non-revoked, non-expired session row for the token's jti.
Returns the claims on success, `none` on any failure. -/
def validateToken (a : AuthService) (tok : SignedToken) (now : Int) (db : List SessionRow) :
    Option JWTClaims :=
  if !tok.isHMAC then none
  else if tok.sig ≠ hmacMock a.jwtSecret (claimsBytes tok.claims) then none
  else if ¬ (tok.claims.notBefore ≤ now ∧ now < tok.claims.expiresAt) then none
  else if db.any (sessionLive tok.claims.jti now) then some tok.claims
  else none

/-- Function `RevokeSession` from `auth.go`:
`UPDATE user_sessions SET revoked = TRUE WHERE refresh_token = $1`
(the lookup is by the stored plaintext refresh token). -/
def revokeSession (refreshToken : List Nat) (db : List SessionRow) : List SessionRow :=
  db.map (fun r => if r.refreshToken == refreshToken then { r with revoked := true } else r)

/-- Function `RevokeAllUserSessions` from `auth.go`. -/
def revokeAllUserSessions (userID : List Nat) (db : List SessionRow) : List SessionRow :=
  db.map (fun r => if r.userID == userID then { r with revoked := true } else r)

/-- C1: after `GenerateTokenPair(user, deviceInfo, ipAddress)`, an
immediate `ValidateToken` on the returned access token yields claims
whose user id equals `user.ID`; `ValidateToken` succeeds only if the
HMAC signature and the `nbf ≤ now < exp` time checks pass and a
non-revoked, non-expired session row exists for the token's jti; and
after `RevokeSession(refreshToken)` the same still-unexpired access
token no longer validates.  The freshness hypothesis says the newly
drawn jti UUID does not already occur in the table. -/
theorem c1_token_lifecycle (secret : List Nat) (user : User) (deviceInfo ipAddress : List Nat)
    (now : Int) (ent : TokenEntropy) (db : List SessionRow)
    (hfresh : ∀ r ∈ db, r.accessTokenJti ≠ ent.jtiUUID) :
    (let a := newAuthService secret
     let res := generateTokenPair a user deviceInfo ipAddress now ent db
     (∃ c, validateToken a res.1.accessToken now res.2 = some c ∧ c.userID = user.id) ∧
       validateToken a res.1.accessToken now (revokeSession res.1.refreshToken res.2) = none) ∧
    (∀ (a : AuthService) (tok : SignedToken) (t : Int) (d : List SessionRow) (c : JWTClaims),
      validateToken a tok t d = some c →
      c = tok.claims ∧ tok.isHMAC = true ∧
        tok.sig = hmacMock a.jwtSecret (claimsBytes tok.claims) ∧
        tok.claims.notBefore ≤ t ∧ t < tok.claims.expiresAt ∧
        ∃ r ∈ d, r.accessTokenJti = tok.claims.jti ∧ t < r.expiresAt ∧ r.revoked = false) := by
  have hexp : now < now + 900 := by omega
  have hsess : now < now + 604800 := by omega
  refine ⟨⟨?_, ?_⟩, ?_⟩
  · refine ⟨tokenPairClaims (newAuthService secret) user deviceInfo ipAddress now ent, ?_, rfl⟩
    simp [validateToken, generateTokenPair, newAuthService, newSessionRow, tokenPairClaims,
      sessionLive, List.any_append, hexp, hsess]
  · have hmapped : ∀ r ∈ db,
        sessionLive ent.jtiUUID now
          (if r.refreshToken == b64ePadded b64UrlAlpha ent.refreshBytes
            then { r with revoked := true } else r) = false := by
      intro r hr
      have hj := hfresh r hr
      by_cases hm : r.refreshToken == b64ePadded b64UrlAlpha ent.refreshBytes <;>
        simp [hm, sessionLive, hj]
    have hany : (revokeSession (b64ePadded b64UrlAlpha ent.refreshBytes)
        (db ++ [newSessionRow (newAuthService secret) user deviceInfo ipAddress now ent])).any
          (sessionLive ent.jtiUUID now) = false := by
      simp only [revokeSession, List.map_append, List.any_append, Bool.or_eq_false_iff]
      constructor
      · rw [List.any_map, List.any_eq_false]
        intro r hr
        simpa using hmapped r hr
      · simp [newSessionRow, sessionLive]
    have hdur : (newAuthService secret).tokenDuration = 900 := rfl
    simp only [generateTokenPair, validateToken]
    simp only [tokenPairClaims]
    simp [hdur, hexp, hany]
  · intro a tok t d c hv
    unfold validateToken at hv
    split at hv
    · exact absurd hv (by simp)
    · split at hv
      · exact absurd hv (by simp)
      · split at hv
        · exact absurd hv (by simp)
        · split at hv
          · rename_i h1 h2 h3 h4
            simp only [Option.some.injEq] at hv
            have h1' : tok.isHMAC = true := by revert h1; cases tok.isHMAC <;> simp
            rw [not_not] at h2 h3
            refine ⟨hv.symm, h1', h2, h3.1, h3.2, ?_⟩
            rw [List.any_eq_true] at h4
            obtain ⟨r, hr, hcond⟩ := h4
            simp only [sessionLive, Bool.and_eq_true, beq_iff_eq, decide_eq_true_eq,
              Bool.not_eq_true'] at hcond
            exact ⟨r, hr, hcond.1.1, hcond.1.2, hcond.2⟩
          · exact absurd hv (by simp)

/-- A concrete user record for witnesses and counterexamples. -/
def sampleUser : User :=
  { id := [10]
    tenantID := [11]
    email := [12]
    emailVerified := true
    firstName := []
    lastName := []
    phoneNumber := []
    phoneVerified := false
    role := [13]
    isActive := true
    twoFactorEnabled := false
    lastLoginAt := none
    failedLoginAttempts := 0
    lockedUntil := none
    createdAt := 0
    updatedAt := 0 }

/-- A concrete entropy record for witnesses and counterexamples. -/
def sampleEntropy : TokenEntropy :=
  { sessionUUID := [20]
    jtiUUID := [21]
    refreshBytes := [22, 23]
    refreshSalt := [24] }

theorem c1_token_lifecycle_witness :
    (∀ r ∈ ([] : List SessionRow), r.accessTokenJti ≠ sampleEntropy.jtiUUID) ∧
      ((let a := newAuthService [1]
        let res := generateTokenPair a sampleUser [2] [3] 0 sampleEntropy []
        (∃ c, validateToken a res.1.accessToken 0 res.2 = some c ∧ c.userID = sampleUser.id) ∧
          validateToken a res.1.accessToken 0 (revokeSession res.1.refreshToken res.2) = none) ∧
        (∀ (a : AuthService) (tok : SignedToken) (t : Int) (d : List SessionRow) (c : JWTClaims),
          validateToken a tok t d = some c →
          c = tok.claims ∧ tok.isHMAC = true ∧
            tok.sig = hmacMock a.jwtSecret (claimsBytes tok.claims) ∧
            tok.claims.notBefore ≤ t ∧ t < tok.claims.expiresAt ∧
            ∃ r ∈ d, r.accessTokenJti = tok.claims.jti ∧ t < r.expiresAt ∧ r.revoked = false)) :=
  ⟨by simp, c1_token_lifecycle [1] sampleUser [2] [3] 0 sampleEntropy [] (by simp)⟩

/-- Structure `SMS2FAService` from `sms_2fa.go`; `testMode` is true iff any
Twilio credential is empty, exactly as in `NewSMS2FAService`. -/
structure SMS2FAService where
  authService : AuthService
  twilioSID : List Nat
  twilioToken : List Nat
  twilioPhone : List Nat
  testMode : Bool
deriving DecidableEq

/-- Constructor `NewSMS2FAService` from `sms_2fa.go`. -/
def newSMS2FAService (authService : AuthService) (sid token phone : List Nat) : SMS2FAService :=
  { authService := authService
    twilioSID := sid
    twilioToken := token
    twilioPhone := phone
    testMode := sid == [] || token == [] || phone == [] }

/-- A row of the `sms_verification_codes` table.  Schema defaults:
`attempts` 0, `max_attempts` 3, `verified` false. -/
structure SMSCodeRow where
  userID : List Nat
  phoneNumber : List Nat
  code : List Nat
  codeHash : List Nat
  purpose : List Nat
  attempts : Nat
  maxAttempts : Nat
  expiresAt : Int
  verified : Bool
  createdAt : Int
deriving DecidableEq

/-- The slice of a `users` row touched by `VerifyCode`. -/
structure UserRow where
  id : List Nat
  phoneVerified : Bool
  phoneNumber : List Nat
deriving DecidableEq

/-- Function `GenerateVerificationCode` from `sms_2fa.go`.  The Go code
mutates the `max` big.Int in place: `max.Sub(max, min)` turns it into
899999 and the chained `.Add(max, 1)` into 900000, which is the
exclusive bound handed to `rand.Int`; the sampled value (modelled by
`r % bound`) is then shifted by `n.Add(n, min)` and rendered in
decimal. -/
def generateVerificationCode (r : Nat) : List Nat :=
  let max0 := 999999
  let min0 := 100000
  let max1 := max0 - min0
  let bound := max1 + 1
  let n := r % bound
  decStr (n + min0)

/-- Function `isValidPhoneNumber` from `sms_2fa.go`: strip spaces,
dashes, parentheses and dots; require a leading `+` (43) followed by
10 to 15 ASCII digits. -/
def isValidPhoneNumber (phone : List Nat) : Bool :=
  let cleaned := phone.filter (fun c => !(c == 32 || c == 45 || c == 40 || c == 41 || c == 46))
  match cleaned with
  | 43 :: digits =>
      decide (10 ≤ digits.length) && decide (digits.length ≤ 15) &&
        digits.all (fun c => decide (48 ≤ c) && decide (c ≤ 57))
  | _ => false

/-- Result of `SendVerificationCode`: either the invalid-phone
response (`success=false`, no error) or the success response carrying
the expiry. -/
inductive SendOutcome where
  | invalidPhone
  | sent (expiresAt : Int)
deriving DecidableEq

/-- Function `SendVerificationCode` from `sms_2fa.go`: validate the phone,
generate and hash the code, delete unexpired challenges for the
`(phone, purpose)` pair, insert the new row (storing both the
plaintext code and its hash, as the Go `INSERT` does), then attempt
delivery; in test mode delivery always succeeds, otherwise the Twilio
outcome `gatewayOK` decides between the success response and an error
— the freshly inserted row is left in place either way. -/
def sendVerificationCode (s : SMS2FAService) (phoneNumber purpose userID : List Nat)
    (now : Int) (codeRand : Nat) (salt : List Nat) (gatewayOK : Bool)
    (codes : List SMSCodeRow) : Except (List Nat) SendOutcome × List SMSCodeRow :=
  if !isValidPhoneNumber phoneNumber then (.ok .invalidPhone, codes)
  else
    let code := generateVerificationCode codeRand
    let codeHash := hashPassword s.authService code salt
    let expiresAt := now + 5 * 60
    let codes1 := codes.filter (fun x =>
      !(x.phoneNumber == phoneNumber && x.purpose == purpose && decide (now < x.expiresAt)))
    let row : SMSCodeRow :=
      { userID := userID
        phoneNumber := phoneNumber
        code := code
        codeHash := codeHash
        purpose := purpose
        attempts := 0
        maxAttempts := 3
        expiresAt := expiresAt
        verified := false
        createdAt := now }
    let codes2 := codes1 ++ [row]
    if s.testMode then (.ok (.sent expiresAt), codes2)
    else if gatewayOK then (.ok (.sent expiresAt), codes2)
    else (.error (strBytes (r"failed to send SMS")), codes2)

/-- The row selected by `VerifyCode`:
`WHERE phone_number AND purpose ORDER BY created_at DESC LIMIT 1`. -/
def latestCode (phoneNumber purpose : List Nat) (codes : List SMSCodeRow) : Option SMSCodeRow :=
  (codes.filter (fun x => x.phoneNumber == phoneNumber && x.purpose == purpose)).foldl
    (fun acc x =>
      match acc with
      | none => some x
      | some b => if b.createdAt ≤ x.createdAt then some x else some b) none

/-- Outcomes of `VerifyCode`, one per distinct Go response message;
`invalid` carries the reported remaining-attempt count
(`maxAttempts - (attempts + 1)`, which the Go code floors at the
message level only). -/
inductive VerifyOutcome where
  | notFound
  | alreadyUsed
  | expired
  | tooManyAttempts
  | invalid (remainingAttempts : Int)
  | success
deriving DecidableEq

/-- Function `VerifyCode` from `sms_2fa.go`: fetch the latest challenge for
`(phone, purpose)`; reject when missing, already used, expired, or out
of attempts; otherwise increment `attempts` first, then compare the
submitted code against the stored hash; on success mark the row
verified and, for `phone_verification` with a user id, set the user's
phone-verified flag. -/
def verifyCode (s : SMS2FAService) (phoneNumber code purpose userID : List Nat) (now : Int)
    (codes : List SMSCodeRow) (users : List UserRow) :
    VerifyOutcome × List SMSCodeRow × List UserRow :=
  match latestCode phoneNumber purpose codes with
  | none => (.notFound, codes, users)
  | some row =>
      if row.verified then (.alreadyUsed, codes, users)
      else if row.expiresAt < now then (.expired, codes, users)
      else if row.maxAttempts ≤ row.attempts then (.tooManyAttempts, codes, users)
      else
        let codes1 := codes.map (fun x =>
          if x.phoneNumber == phoneNumber && x.purpose == purpose && x.expiresAt == row.expiresAt
          then { x with attempts := x.attempts + 1 } else x)
        let isValid := verifyPassword s.authService code row.codeHash
        if !isValid then
          (.invalid ((row.maxAttempts : Int) - ((row.attempts : Int) + 1)), codes1, users)
        else
          let codes2 := codes1.map (fun x =>
            if x.phoneNumber == phoneNumber && x.purpose == purpose && x.expiresAt == row.expiresAt
            then { x with verified := true } else x)
          let users1 :=
            if purpose == strBytes (r"phone_verification") && !(userID == []) then
              users.map (fun u =>
                if u.id == userID
                then { u with phoneVerified := true, phoneNumber := phoneNumber } else u)
            else users
          (.success, codes2, users1)

/-- Decimal rendering of an `n` with `10^k ≤ n < 10^(k+1)` has exactly
`k + 1` digits (given enough fuel). -/
theorem decStrAux_length : ∀ (f n k : Nat), n < f → 10 ^ k ≤ n → n < 10 ^ (k + 1) →
    (decStrAux f n).length = k + 1
  | 0, n, _, h, _, _ => absurd h (by omega)
  | f + 1, n, k, hf, hlo, hhi => by
      by_cases h10 : n < 10
      · have hk : k = 0 := by
          by_contra hk
          have h1 : (10:Nat) = 10 ^ 1 := (pow_one 10).symm
          have h2 : (10:Nat) ^ 1 ≤ 10 ^ k := Nat.pow_le_pow_right (by omega) (by omega)
          omega
        subst hk
        simp [decStrAux, h10]
      · obtain ⟨k', rfl⟩ : ∃ k', k = k' + 1 := by
          refine ⟨k - 1, ?_⟩
          have hk0 : k ≠ 0 := by
            intro h0
            subst h0
            rw [pow_one] at hhi
            omega
          omega
        have hn0 : 0 < n := by omega
        have hdiv_lt : n / 10 < f := by
          have := Nat.div_lt_self hn0 (by omega : 1 < 10)
          omega
        have hlo2 : 10 ^ k' ≤ n / 10 := by
          rw [Nat.le_div_iff_mul_le (by omega : 0 < 10)]
          calc 10 ^ k' * 10 = 10 ^ (k' + 1) := (pow_succ 10 k').symm
          _ ≤ n := hlo
        have hhi2 : n / 10 < 10 ^ (k' + 1) := by
          rw [Nat.div_lt_iff_lt_mul (by omega : 0 < 10)]
          calc n < 10 ^ (k' + 1 + 1) := hhi
          _ = 10 ^ (k' + 1) * 10 := pow_succ 10 (k' + 1)
        have ih := decStrAux_length f (n / 10) k' hdiv_lt hlo2 hhi2
        simp [decStrAux, h10, ih]

/-- C9: whenever its random source succeeds, `GenerateVerificationCode`
returns a string of exactly 6 decimal digits.  The sampled value `r`
is reduced modulo the bound 900000 that the in-place big.Int mutations
produce, so the generated integer lies in `[100000, 999999]` and its
decimal rendering has length 6 with every byte an ASCII digit. -/
theorem c9_code_always_six_digits (r : Nat) :
    100000 ≤ r % 900000 + 100000 ∧ r % 900000 + 100000 ≤ 999999 ∧
      generateVerificationCode r = decStr (r % 900000 + 100000) ∧
      (generateVerificationCode r).length = 6 ∧
      ∀ c ∈ generateVerificationCode r, 48 ≤ c ∧ c ≤ 57 := by
  have hmod : r % 900000 < 900000 := Nat.mod_lt _ (by omega)
  have h5 : (10:Nat) ^ 5 = 100000 := by norm_num
  have h6 : (10:Nat) ^ 6 = 1000000 := by norm_num
  refine ⟨by omega, by omega, rfl, ?_, ?_⟩
  · show (decStr (r % 900000 + 100000)).length = 6
    unfold decStr
    exact decStrAux_length _ _ 5 (by omega) (by omega) (by omega)
  · intro c hc
    exact mem_decStr_digit _ c hc

/-- An auth service with small Argon2 work parameters, used to keep
concrete evaluations of the security flows tractable; the attempt and
delivery logic under test does not depend on the parameter sizes. -/
def smallAuth : AuthService :=
  { jwtSecret := []
    argon2Params := { memory := 8, iterations := 1, parallelism := 1, saltLength := 4, keyLength := 4 }
    tokenDuration := 900
    refreshDuration := 604800 }

set_option maxRecDepth 1000000 in
/-- C7: part one is the concrete scenario — after `RequestCode` creates
a challenge with `maxAttempts = 3`, three `VerifyCode` calls with a
wrong code leave `Invalid(2)`, `Invalid(1)`, `Invalid(0)`, and a 4th
call with the correct code returns `TooManyAttempts`.  Part two is the
general rule: whenever a call reaches the code comparison (the fetched
row exists, is unverified, unexpired and under budget), the attempts
counter of every matching row is incremented first, whether the
submitted code matches or not (the outcome is then `Invalid` or
`Success`). -/
theorem c7_attempt_budget (s : SMS2FAService) (phone c purpose uid : List Nat) (now : Int)
    (codes : List SMSCodeRow) (users : List UserRow) (row : SMSCodeRow)
    (hlatest : latestCode phone purpose codes = some row)
    (hver : row.verified = false) (hexp : ¬(row.expiresAt < now))
    (hatt : row.attempts < row.maxAttempts) :
    (let sv := newSMS2FAService smallAuth [] [] []
     let ph := strBytes (r"+15551234567")
     let pu := strBytes (r"login")
     let codes1 := (sendVerificationCode sv ph pu [] 0 23456 [1, 2, 3] true []).2
     let wrong := strBytes (r"000000")
     let v1 := verifyCode sv ph wrong pu [] 0 codes1 []
     let v2 := verifyCode sv ph wrong pu [] 0 v1.2.1 []
     let v3 := verifyCode sv ph wrong pu [] 0 v2.2.1 []
     let v4 := verifyCode sv ph (strBytes (r"123456")) pu [] 0 v3.2.1 []
     generateVerificationCode 23456 = strBytes (r"123456") ∧
       (codes1.map (fun x => (x.attempts, x.maxAttempts))) = [(0, 3)] ∧
       v1.1 = .invalid 2 ∧ v2.1 = .invalid 1 ∧ v3.1 = .invalid 0 ∧
       v4.1 = .tooManyAttempts) ∧
    (((verifyCode s phone c purpose uid now codes users).1 =
        .invalid ((row.maxAttempts : Int) - ((row.attempts : Int) + 1)) ∨
      (verifyCode s phone c purpose uid now codes users).1 = .success) ∧
    (verifyCode s phone c purpose uid now codes users).2.1.map (fun x => x.attempts) =
      codes.map (fun x =>
        if x.phoneNumber == phone && x.purpose == purpose && x.expiresAt == row.expiresAt
        then x.attempts + 1 else x.attempts)) := by
  constructor
  · decide
  · unfold verifyCode
    rw [hlatest]
    have hatt2 : ¬ row.maxAttempts ≤ row.attempts := by omega
    by_cases hv : verifyPassword s.authService c row.codeHash
    all_goals simp [hver, hexp, hatt2, hv, List.map_map]
    all_goals intro a ha
    all_goals by_cases hm : (a.phoneNumber = phone ∧ a.purpose = purpose) ∧ a.expiresAt = row.expiresAt
    all_goals simp [hm]

/-- A concrete stored challenge row used by witnesses. -/
def sampleCodeRow : SMSCodeRow :=
  { userID := []
    phoneNumber := [43, 49]
    code := [49]
    codeHash := [50]
    purpose := [108]
    attempts := 1
    maxAttempts := 3
    expiresAt := 300
    verified := false
    createdAt := 0 }

theorem c7_attempt_budget_witness :
    (latestCode [43, 49] [108] [sampleCodeRow] = some sampleCodeRow ∧
      sampleCodeRow.verified = false ∧ ¬(sampleCodeRow.expiresAt < (0:Int)) ∧
      sampleCodeRow.attempts < sampleCodeRow.maxAttempts) ∧
    ((let sv := newSMS2FAService smallAuth [] [] []
      let ph := strBytes (r"+15551234567")
      let pu := strBytes (r"login")
      let codes1 := (sendVerificationCode sv ph pu [] 0 23456 [1, 2, 3] true []).2
      let wrong := strBytes (r"000000")
      let v1 := verifyCode sv ph wrong pu [] 0 codes1 []
      let v2 := verifyCode sv ph wrong pu [] 0 v1.2.1 []
      let v3 := verifyCode sv ph wrong pu [] 0 v2.2.1 []
      let v4 := verifyCode sv ph (strBytes (r"123456")) pu [] 0 v3.2.1 []
      generateVerificationCode 23456 = strBytes (r"123456") ∧
        (codes1.map (fun x => (x.attempts, x.maxAttempts))) = [(0, 3)] ∧
        v1.1 = .invalid 2 ∧ v2.1 = .invalid 1 ∧ v3.1 = .invalid 0 ∧
        v4.1 = .tooManyAttempts) ∧
     (((verifyCode (newSMS2FAService smallAuth [] [] []) [43, 49] [51] [108] [] 0
          [sampleCodeRow] []).1 =
         .invalid ((sampleCodeRow.maxAttempts : Int) - ((sampleCodeRow.attempts : Int) + 1)) ∨
       (verifyCode (newSMS2FAService smallAuth [] [] []) [43, 49] [51] [108] [] 0
          [sampleCodeRow] []).1 = .success) ∧
     (verifyCode (newSMS2FAService smallAuth [] [] []) [43, 49] [51] [108] [] 0
        [sampleCodeRow] []).2.1.map (fun x => x.attempts) =
       [sampleCodeRow].map (fun x =>
         if x.phoneNumber == [43, 49] && x.purpose == [108] && x.expiresAt == sampleCodeRow.expiresAt
         then x.attempts + 1 else x.attempts))) :=
  ⟨⟨by decide, rfl, by decide, by decide⟩,
    c7_attempt_budget (newSMS2FAService smallAuth [] [] []) [43, 49] [51] [108] [] 0
      [sampleCodeRow] [] sampleCodeRow (by decide) rfl (by decide) (by decide)⟩

/-- An SMS service with full Twilio credentials, hence `testMode = false`. -/
def liveSMSService : SMS2FAService :=
  newSMS2FAService smallAuth (strBytes (r"sid")) (strBytes (r"tok")) (strBytes (r"+15550000000"))

set_option maxRecDepth 1000000 in
/-- C6 (failing input): with Twilio configured (`testMode = false`) and
the delivery gateway failing, `SendVerificationCode` returns the
delivery error yet the freshly created challenge row for
`("+15551234567", "login")` is still stored — the insert happens
before the gateway call and is never rolled back, so the operation is
not atomic with respect to delivery failure. -/
theorem c6_gateway_failure_leaves_row :
    liveSMSService.testMode = false ∧
    (let res := sendVerificationCode liveSMSService (strBytes (r"+15551234567"))
       (strBytes (r"login")) [] 0 23456 [1, 2, 3] false []
     res.1 = .error (strBytes (r"failed to send SMS")) ∧
       res.2.map (fun x => (x.phoneNumber, x.purpose, x.code, x.attempts, x.maxAttempts, x.verified)) =
         [(strBytes (r"+15551234567"), strBytes (r"login"), strBytes (r"123456"), 0, 3, false)]) :=
  ⟨by decide, rfl, by decide⟩

set_option maxRecDepth 1000000 in
/-- C4 (counterexample): the claim that the persisted rows contain only
hashes of the secrets is false on a concrete run: the session row
inserted by `GenerateTokenPair` carries the plaintext refresh token
returned to the caller (the Go `INSERT` passes `refreshToken` into the
`refresh_token` column next to `refresh_token_hash`), and the
challenge row inserted by `SendVerificationCode` carries the plaintext
code in the `code` column next to `code_hash`. -/
theorem c4_counterexample_plaintext_stored :
    (let res := generateTokenPair (newAuthService [1]) sampleUser [2] [3] 0 sampleEntropy []
     res.2.map (fun x => x.refreshToken) = [res.1.refreshToken] ∧ res.1.refreshToken ≠ []) ∧
    (let res := sendVerificationCode (newSMS2FAService smallAuth [] [] [])
       (strBytes (r"+15551234567")) (strBytes (r"login")) [] 0 23456 [1, 2, 3] true []
     res.2.map (fun x => (x.code, x.codeHash == hashPassword smallAuth x.code [1, 2, 3])) =
       [(strBytes (r"123456"), true)]) := by
  constructor
  · constructor <;> decide
  · decide

/-- C4 (amended): the new session row stores the jti, fingerprint,
expiry and the CredentialHasher hash of the refresh token — but also
the plaintext refresh token itself; the new challenge row stores the
hash of the SMS code — but also the plaintext code.  Part one
characterises the row `GenerateTokenPair` inserts; part two gives the
exact post-state of `SendVerificationCode` for a valid phone number,
whose inserted row contains both `code` and `codeHash`. -/
theorem c4_rows_store_hash_and_plaintext :
    (∀ (a : AuthService) (user : User) (dev ip : List Nat) (now : Int) (ent : TokenEntropy)
       (db : List SessionRow),
      (generateTokenPair a user dev ip now ent db).2 =
          db ++ [newSessionRow a user dev ip now ent] ∧
        (newSessionRow a user dev ip now ent).refreshToken =
          (generateTokenPair a user dev ip now ent db).1.refreshToken ∧
        (newSessionRow a user dev ip now ent).refreshTokenHash =
          hashPassword a (generateTokenPair a user dev ip now ent db).1.refreshToken ent.refreshSalt ∧
        (newSessionRow a user dev ip now ent).accessTokenJti =
          (generateTokenPair a user dev ip now ent db).1.accessToken.claims.jti ∧
        (newSessionRow a user dev ip now ent).deviceFingerprint = createDeviceFingerprint dev ip ∧
        (newSessionRow a user dev ip now ent).expiresAt = now + a.refreshDuration) ∧
    (∀ (s : SMS2FAService) (phone purpose uid : List Nat) (t : Int) (cr : Nat) (salt : List Nat)
       (g : Bool) (codes : List SMSCodeRow),
      isValidPhoneNumber phone = true →
      (sendVerificationCode s phone purpose uid t cr salt g codes).2 =
        codes.filter (fun x =>
          !(x.phoneNumber == phone && x.purpose == purpose && decide (t < x.expiresAt))) ++
        [{ userID := uid
           phoneNumber := phone
           code := generateVerificationCode cr
           codeHash := hashPassword s.authService (generateVerificationCode cr) salt
           purpose := purpose
           attempts := 0
           maxAttempts := 3
           expiresAt := t + 5 * 60
           verified := false
           createdAt := t }]) := by
  constructor
  · intro a user dev ip now ent db
    exact ⟨rfl, rfl, rfl, rfl, rfl, rfl⟩
  · intro s phone purpose uid t cr salt g codes hval
    simp only [sendVerificationCode, hval, Bool.not_true, Bool.false_eq_true, if_false]
    by_cases ht : s.testMode
    · simp [ht]
    · by_cases hg : g
      · simp [ht, hg]
      · simp [ht, hg]

set_option maxRecDepth 1000000 in
theorem c4_rows_store_hash_and_plaintext_witness :
    isValidPhoneNumber (strBytes (r"+15551234567")) = true ∧
      (sendVerificationCode (newSMS2FAService smallAuth [] [] []) (strBytes (r"+15551234567"))
          (strBytes (r"login")) [] 0 23456 [1, 2, 3] true []).2 =
        ([] : List SMSCodeRow).filter (fun x =>
          !(x.phoneNumber == strBytes (r"+15551234567") && x.purpose == strBytes (r"login") &&
            decide ((0:Int) < x.expiresAt))) ++
        [{ userID := []
           phoneNumber := strBytes (r"+15551234567")
           code := generateVerificationCode 23456
           codeHash := hashPassword smallAuth (generateVerificationCode 23456) [1, 2, 3]
           purpose := strBytes (r"login")
           attempts := 0
           maxAttempts := 3
           expiresAt := 0 + 5 * 60
           verified := false
           createdAt := 0 }] :=
  ⟨by decide,
    c4_rows_store_hash_and_plaintext.2 (newSMS2FAService smallAuth [] [] [])
      (strBytes (r"+15551234567")) (strBytes (r"login")) [] 0 23456 [1, 2, 3] true []
      (by decide)⟩
